import Mathlib

set_option maxRecDepth 100000


/-!
Verification of the game-pricing-intel pipeline against its design
specification.

The repository cleans a raw CSV of game metadata
(backend/app/ingestion/clean_games.py, clean_reviews.py), builds
aggregated mart tables (backend/app/analytics/build_q1_marts.py,
build_q2_marts.py, build_q3_marts.py) and serves the same aggregations
live (backend/app/main.py).  This file gives a shallow embedding of the
string processing, cleaning, aggregation and persistence logic of those
modules, and proves or refutes the frozen claims about them.

Python strings are modelled as lists of characters; pandas numeric
columns after to_numeric(errors="coerce") are modelled as Option Rat
(none standing for NaN); tables are lists of typed rows.  CSV files are
read back with keep_default_na=False in every consumer, so string
columns are never NaN there and are modelled as plain PyStr.
-/

namespace GamePricing


/-- Python strings, modelled as lists of characters. -/
abbrev PyStr := List Char


/-- Python str.strip: drop leading and trailing whitespace. -/
def pyStrip (s : PyStr) : PyStr :=
  ((s.dropWhile Char.isWhitespace).reverse.dropWhile Char.isWhitespace).reverse


/-- Python str.lower (ASCII case folding, as used on the data here). -/
def pyLower (s : PyStr) : PyStr := s.map Char.toLower


/-- Helper for pyReplace, structurally recursive on a fuel argument so
that the kernel can evaluate it; the fuel is always at least the length
of the remaining string, and each step consumes at least one character. -/
def pyReplaceAux (pat rep : PyStr) : ℕ → PyStr → PyStr
  | _, [] => []
  | 0, s => s
  | fuel + 1, c :: rest =>
    if pat ≠ [] ∧ pat.isPrefixOf (c :: rest) then
      rep ++ pyReplaceAux pat rep fuel (rest.drop (pat.length - 1))
    else
      c :: pyReplaceAux pat rep fuel rest


/-- Python str.replace / pandas str.replace(regex=False): replace every
non-overlapping occurrence of a non-empty pattern, scanning left to right. -/
def pyReplace (s pat rep : PyStr) : PyStr :=
  pyReplaceAux pat rep s.length s


/-- Numeric value of a list of decimal digit characters. -/
def digitsVal (l : List Char) : ℕ :=
  l.foldl (fun a c => a * 10 + (c.toNat - 48)) 0


/-- Shallow model of pandas to_numeric(errors="coerce") applied to a
string: an optional sign, then decimal digits with at most one point;
anything else coerces to NaN (none).  Exponent notation does not occur
in this data and is not modelled. -/
def parseNum (s : PyStr) : Option ℚ :=
  let core : PyStr → Option ℚ := fun body =>
    match body.splitOn '.' with
    | [ip] =>
      if ip ≠ [] ∧ ip.all Char.isDigit then some (digitsVal ip) else none
    | [ip, fp] =>
      if (ip ≠ [] ∨ fp ≠ []) ∧ ip.all Char.isDigit ∧ fp.all Char.isDigit then
        some ((digitsVal ip : ℚ) + (digitsVal fp : ℚ) / (10 : ℚ) ^ fp.length)
      else none
    | _ => none
  match s with
  | '-' :: body => (core body).map (fun q => -q)
  | '+' :: body => core body
  | body => core body


/-- Model of pandas astype(str) on one cell: a missing value (NaN)
becomes the literal string "nan". -/
def pyToStr (v : Option PyStr) : PyStr :=
  match v with
  | some s => s
  | none => "nan".toList


/-- Model of pandas to_numeric on a raw cell: a missing cell stays
missing, a string cell is parsed. -/
def parseCell (v : Option PyStr) : Option ℚ :=
  match v with
  | some s => parseNum s
  | none => none


/-! ### Genre explosion (claim C5)

build_q2_marts.explode_genres and build_q3_marts.explode_genres are
textually identical: split the Genres string on ",", strip each token,
then keep tokens that are non-empty and whose lowercase form is not
"unknown".  The facade endpoints reviews_by_genre and avg_price_by_genre
in main.py split and strip the same way but filter only empty tokens. -/


/-- Tokens of one Genres cell after pandas str.split(",") followed by
str.strip on each token. -/
def split_trim_genres (g : PyStr) : List PyStr :=
  (g.splitOn ',').map pyStrip


/-- Genre tokens kept by explode_genres in build_q2_marts.py and
build_q3_marts.py: drop empty tokens and the case-insensitive sentinel
"unknown". -/
def explode_genres_tokens (g : PyStr) : List PyStr :=
  (split_trim_genres g).filter
    (fun t => decide (t ≠ []) && decide (pyLower t ≠ "unknown".toList))


/-- Genre tokens kept by the by-genre endpoints of main.py
(reviews_by_genre lines 181-184, avg_price_by_genre lines 275-277):
only empty tokens are dropped. -/
def facade_genre_tokens (g : PyStr) : List PyStr :=
  (split_trim_genres g).filter (fun t => decide (t ≠ []))


/-! ### IsFree normalization (claim C7) -/


/-- Truthy encodings recognised for the IsFree column. -/
def isfree_tokens : List PyStr := ["true".toList, "1".toList, "yes".toList]


/-- normalize_isfree from build_q3_marts.py: astype(str).str.lower()
.str.strip().isin(["true", "1", "yes"]). -/
def normalize_isfree (s : PyStr) : Bool :=
  decide (pyStrip (pyLower s) ∈ isfree_tokens)


/-- The free check of free_vs_paid in main.py (line 247):
astype(str).str.lower().isin(["true", "1", "yes"]) with no strip. -/
def facade_isfree (s : PyStr) : Bool :=
  decide (pyLower s ∈ isfree_tokens)


/-! ### The games cleaning pipeline (claim C1)

clean_games.main reads the raw CSV, remaps columns, and then cleans the
Name and Price columns (clean_games.py lines 77-97) before dropping rows
with dropna(subset=["Name", "Price"]) (line 113).  Name is coerced with
astype(str), under which a missing cell becomes the literal string
"nan", so the Name half of the dropna can never fire; only an
unparsable Price produces NaN and drops the row.  The derived
ReleaseMonth/ReleaseSeason columns are optional extras that do not feed
the retention decision and are not part of claim C1, so the embedding
carries the Name and Price columns. -/


/-- Raw cells of one games row that feed the drop/retain decision of
clean_games.main; none models a missing (NaN) cell. -/
structure GameRaw where
  name : Option PyStr
  price : Option PyStr
deriving DecidableEq


/-- Price cleaning of clean_games.main (lines 88-97): astype(str), strip
the dollar sign, map the free-game tokens to "0", strip whitespace, then
to_numeric(errors="coerce"). -/
def clean_price_games (v : Option PyStr) : Option ℚ :=
  parseNum (pyStrip (pyReplace (pyReplace (pyReplace (pyToStr v)
    ("$".toList) ("".toList)) ("Free to Play".toList) ("0".toList))
    ("Free".toList) ("0".toList)))


/-- One row of the cleaned games table as clean_games.main writes it. -/
structure GameClean where
  name : PyStr
  price : Option ℚ
deriving DecidableEq


/-- Row processing of clean_games.main: clean Name (astype(str) then
strip), clean Price, then drop rows via dropna(subset=["Name","Price"]).
After astype(str) the Name cell is never NaN, so only the Price check
can drop a row. -/
def clean_games (t : List GameRaw) : List GameClean :=
  (t.map (fun r =>
    { name := pyStrip (pyToStr r.name), price := clean_price_games r.price }))
    |>.filter (fun r => r.price.isSome)


/-! ### The reviews cleaning pipeline (claim C3)

clean_reviews.main parses Price, Positive and Negative with
to_numeric(errors="coerce"), drops rows where any of the three is NaN,
then additionally drops every row with Positive + Negative = 0
(clean_reviews.py line 62: df[(df["Positive"] + df["Negative"]) > 0])
before computing PositiveRatio = Positive / (Positive + Negative).
The Genres/Publishers text columns are merely stripped and play no role
in retention or in the ratio. -/


/-- Raw cells of one reviews row that feed retention and the ratio. -/
structure RevRaw where
  price : Option PyStr
  positive : Option PyStr
  negative : Option PyStr
deriving DecidableEq


/-- Price cleaning of clean_reviews.main (lines 45-53): map the
free-game tokens to "0", then strip the dollar sign, strip whitespace,
then to_numeric(errors="coerce") (note the replacements run in the
opposite order to clean_games). -/
def clean_price_reviews (v : Option PyStr) : Option ℚ :=
  parseNum (pyStrip (pyReplace (pyReplace (pyReplace (pyToStr v)
    ("Free to Play".toList) ("0".toList)) ("Free".toList) ("0".toList))
    ("$".toList) ("".toList)))


/-- One row of the cleaned reviews table; the ratio column is called
PositiveRatio in clean_reviews.py. -/
structure RevClean where
  price : ℚ
  positive : ℚ
  negative : ℚ
  ratio : ℚ
deriving DecidableEq


/-- Row processing of clean_reviews.main: numeric coercion, dropna on
Price/Positive/Negative, the zero-total-review filter, then the ratio. -/
def clean_reviews (t : List RevRaw) : List RevClean :=
  let parsed := t.map (fun r =>
    (clean_price_reviews r.price, parseCell r.positive, parseCell r.negative))
  let kept := parsed.filter (fun x => x.1.isSome && x.2.1.isSome && x.2.2.isSome)
  let vals := kept.map (fun x => (x.1.getD 0, x.2.1.getD 0, x.2.2.getD 0))
  let nz := vals.filter (fun v => decide (0 < v.2.1 + v.2.2))
  nz.map (fun v =>
    { price := v.1, positive := v.2.1, negative := v.2.2,
      ratio := v.2.1 / (v.2.1 + v.2.2) })


/-! ### Column remapping (claim C4)

Both cleaning scripts open with a schema-anomaly correction.
clean_games.py lines 53-59 check that AppID, Name and Release date are
all present and then rotate the three columns into their logical roles;
clean_reviews.py lines 14-16 copy AppID into Name whenever AppID alone
is present.  A table is modelled as a column list plus rows of
column/value pairs; pandas column assignment overwrites an existing
column in place and appends a new column at the end. -/


/-- One table row: an association list from column name to cell value. -/
abbrev PyRow := List (PyStr × PyStr)


/-- A pandas DataFrame restricted to what the remapping reads: its
column list and its rows. -/
structure PyTable where
  cols : List PyStr
  rows : List PyRow
deriving DecidableEq


/-- Reading one cell of a row by column name: the value at the first
binding of that column. -/
def rowGet : PyRow → PyStr → Option PyStr
  | [], _ => none
  | (k, w) :: rest, c => if k = c then some w else rowGet rest c


/-- Writing one cell: overwrite the first binding of the column if it
exists, append the column otherwise (pandas column assignment). -/
def rowSet : PyRow → PyStr → PyStr → PyRow
  | [], c, v => [(c, v)]
  | (k, w) :: rest, c, v =>
    if k = c then (c, v) :: rest else (k, w) :: rowSet rest c v


/-- Column-list update for an assignment: existing columns stay in
place, a new column is appended at the end. -/
def addCol (cols : List PyStr) (c : PyStr) : List PyStr :=
  if c ∈ cols then cols else cols ++ [c]


/-- The value a pandas series assignment carries over from a source
column: the cell if present (a missing binding would surface as NaN,
i.e. the string "nan" after astype(str)). -/
def cellOf (r : PyRow) (c : PyStr) : PyStr :=
  (rowGet r c).getD ("nan".toList)


/-- The semantic-shift remap of clean_games.main (lines 53-59): only
when AppID, Name and Release date are all present, set
Name := AppID, Release date := old Name, Estimated owners := old
Release date, with the old values captured before any assignment. -/
def games_remap (t : PyTable) : PyTable :=
  if "AppID".toList ∈ t.cols ∧ "Name".toList ∈ t.cols ∧
      "Release date".toList ∈ t.cols then
    { cols := addCol t.cols ("Estimated owners".toList),
      rows := t.rows.map (fun r =>
        let realName := cellOf r ("AppID".toList)
        let realDate := cellOf r ("Name".toList)
        let owners := cellOf r ("Release date".toList)
        rowSet (rowSet (rowSet r ("Name".toList) realName)
          ("Release date".toList) realDate) ("Estimated owners".toList) owners) }
  else t


/-- The remap of clean_reviews.main (lines 14-16): whenever AppID is
present, copy it into Name, regardless of the other columns. -/
def reviews_remap (t : PyTable) : PyTable :=
  if "AppID".toList ∈ t.cols then
    { cols := addCol t.cols ("Name".toList),
      rows := t.rows.map (fun r =>
        rowSet r ("Name".toList) (cellOf r ("AppID".toList))) }
  else t


/-- Convenience predicate: all three mis-aligned source columns are
present, the condition checked by clean_games. -/
def all_three_cols (t : PyTable) : Prop :=
  "AppID".toList ∈ t.cols ∧ "Name".toList ∈ t.cols ∧
    "Release date".toList ∈ t.cols

instance (t : PyTable) : Decidable (all_three_cols t) := by
  unfold all_three_cols; infer_instance


/-- Concrete table with all three mis-aligned source columns, used to
exercise the remapping. -/
def remap_demo_table : PyTable :=
  { cols := ["AppID".toList, "Name".toList, "Release date".toList],
    rows := [[("AppID".toList, "Portal".toList),
              ("Name".toList, "2011-04-19".toList),
              ("Release date".toList, "0 - 20000".toList)]] }


/-- The row of remap_demo_table after the clean_games rotation. -/
def remap_demo_row : PyRow :=
  [("AppID".toList, "Portal".toList),
   ("Name".toList, "Portal".toList),
   ("Release date".toList, "2011-04-19".toList),
   ("Estimated owners".toList, "0 - 20000".toList)]


/-! ### The data-paths endpoint (claim C10)

main.py binds, at module level, the imports, the app object, the three
path constants PROJECT_ROOT / DATA_PATH / GAMES_CLEAN (lines 14-16) and
the route handlers.  The handler data_paths (lines 43-52) additionally
reads a global REVIEWS_CLEAN that no statement in the module ever
defines, so evaluating its dict literal raises NameError on every
request. -/


/-- Global names resolvable inside a handler of main.py: the module
bindings plus the builtin str that the handler calls. -/
def main_module_names : List PyStr :=
  ["str".toList, "FastAPI".toList, "HTTPException".toList,
   "Optional".toList, "Path".toList, "pd".toList, "app".toList,
   "PROJECT_ROOT".toList, "DATA_PATH".toList, "GAMES_CLEAN".toList,
   "load_csv".toList, "health".toList, "data_paths".toList,
   "games".toList, "pricing_by_month".toList, "pricing_by_season".toList,
   "price_vs_review_ratio".toList, "reviews_by_genre".toList,
   "reviews_by_publisher".toList, "free_vs_paid".toList,
   "avg_price_by_genre".toList]


/-- The global identifiers referenced, in evaluation order, by the dict
literal in the body of data_paths (main.py lines 45-52). -/
def data_paths_refs : List PyStr :=
  ["str".toList, "PROJECT_ROOT".toList, "str".toList, "DATA_PATH".toList,
   "str".toList, "GAMES_CLEAN".toList, "GAMES_CLEAN".toList,
   "str".toList, "REVIEWS_CLEAN".toList, "REVIEWS_CLEAN".toList]


/-- Python global-name resolution for a straight-line sequence of
reads: the first unresolvable name raises NameError (modelled as the
error value carrying the offending name); otherwise the read values
flow into the response. -/
def lookup_names (env : List PyStr) : List PyStr → Except PyStr (List PyStr)
  | [] => .ok []
  | n :: rest =>
    if n ∈ env then (lookup_names env rest).map (fun l => n :: l)
    else .error n


/-- Evaluation of the data_paths handler body against the module
globals of main.py. -/
def data_paths : Except PyStr (List PyStr) :=
  lookup_names main_module_names data_paths_refs


/-! ### Rounding and descriptive statistics

Series.round(2) and the builtin round(x, 2) round half to even (numpy
banker rounding); the statistics mirror pandas count/mean/median/min/max
on a non-empty numeric series. -/


/-- Rounding to the nearest integer, ties to even (numpy and Python
round). -/
def roundHalfEven (q : ℚ) : ℤ :=
  if Int.fract q < 1/2 then ⌊q⌋
  else if 1/2 < Int.fract q then ⌊q⌋ + 1
  else if ⌊q⌋ % 2 = 0 then ⌊q⌋ else ⌊q⌋ + 1


/-- Rounding to two decimal places, as in Series.round(2) and
round(x, 2). -/
def round2 (q : ℚ) : ℚ :=
  (roundHalfEven (q * 100) : ℚ) / 100


/-- Minimum of a numeric series (0 only for the empty series, which the
aggregations never produce). -/
def listMin : List ℚ → ℚ
  | [] => 0
  | a :: r => r.foldl min a


/-- Maximum of a numeric series. -/
def listMax : List ℚ → ℚ
  | [] => 0
  | a :: r => r.foldl max a


/-- Mean of a numeric series. -/
def listMean (l : List ℚ) : ℚ := l.sum / l.length


/-- Median of a numeric series as pandas computes it: middle element of
the sorted values, or the average of the two middle elements. -/
def listMedian (l : List ℚ) : ℚ :=
  let s := List.insertionSort (· ≤ ·) l
  let n := s.length
  if n = 0 then 0
  else if n % 2 = 1 then s.getD (n / 2) 0
  else (s.getD (n / 2 - 1) 0 + s.getD (n / 2) 0) / 2


/-! ### Season aggregation (claims C2 and C9)

build_q1_marts.main (lines 56-108) and the facade pricing_by_season
(main.py lines 113-146) both group the cleaned table by ReleaseSeason,
aggregate the Price column with count/mean/median/min/max, round the
four price measures to 2 decimals, and order the groups by the position
of the season in the canonical list Winter, Spring, Summer, Fall.  They
differ in their row filters and in how a season outside the canonical
list is treated: the builder keeps it with order index 999, the facade
filters it out with isin.  groupby(sort=True) emits group keys in
ascending (lexicographic) order; the subsequent sort_values on the
order index is modelled with a stable sort. -/


/-- One row of the cleaned games CSV as the season aggregations read it
back (keep_default_na=False: the season cell is a plain string, empty
when the month could not be parsed). -/
structure ClnRow where
  price : Option ℚ
  month : Option ℚ
  season : PyStr
deriving DecidableEq


/-- One aggregation row: the season key with the count and the four
rounded price statistics (called releases_count/avg_price/median_price/
min_price/max_price in the builder and games_count/... in the facade). -/
structure SeasonRow where
  season : PyStr
  count : ℕ
  avg : ℚ
  med : ℚ
  low : ℚ
  high : ℚ
deriving DecidableEq


/-- The canonical season order shared by both implementations. -/
def season_order : List PyStr :=
  ["Winter".toList, "Spring".toList, "Summer".toList, "Fall".toList]


/-- Group keys as pandas groupby(sort=True) yields them: the distinct
values in ascending order. -/
def group_keys (xs : List PyStr) : List PyStr :=
  List.insertionSort (· ≤ ·) xs.dedup


/-- The aggregation core shared by the builder and the facade: group by
season, aggregate Price, round, and order the groups by the supplied
order index (a stable sort over the groupby key order). -/
def season_agg (ord : PyStr → ℕ) (rows : List ClnRow) : List SeasonRow :=
  let keys := group_keys (rows.map (fun r => r.season))
  let sorted := List.insertionSort (fun a b => ord a ≤ ord b) keys
  sorted.map (fun k =>
    let ps := (rows.filter (fun r => decide (r.season = k))).map
      (fun r => r.price.getD 0)
    { season := k, count := ps.length, avg := round2 (listMean ps),
      med := round2 (listMedian ps), low := round2 (listMin ps),
      high := round2 (listMax ps) })


/-- Order index of build_q1_marts.main (lines 101-103): position in the
canonical list, 999 for anything else. -/
def q1_season_ord (s : PyStr) : ℕ :=
  if s ∈ season_order then season_order.indexOf s else 999


/-- Order index of pricing_by_season (main.py line 140):
season_order.index(s), only ever applied to canonical values thanks to
the isin filter. -/
def facade_season_ord (s : PyStr) : ℕ :=
  season_order.indexOf s


/-- Row filters of build_q1_marts.main (lines 65-76): Price parseable,
Price >= 0, ReleaseSeason notna (always true for a string column read
with keep_default_na=False), ReleaseMonth parseable, and with
paid_only additionally Price > 0. -/
def q1_filter (paid_only : Bool) (t : List ClnRow) : List ClnRow :=
  let d1 := t.filter (fun r => r.price.isSome)
  let d2 := d1.filter (fun r => decide (0 ≤ r.price.getD 0))
  let d3 := d2.filter (fun _ => true)
  let d4 := d3.filter (fun r => r.month.isSome)
  if paid_only then d4.filter (fun r => decide (0 < r.price.getD 0)) else d4


/-- The Q1 pricing-by-season mart of build_q1_marts.main; the script
entry point runs it with paid_only = true. -/
def q1_season_mart (paid_only : Bool) (t : List ClnRow) : List SeasonRow :=
  season_agg q1_season_ord (q1_filter paid_only t)


/-- Row handling of the facade pricing_by_season (main.py lines
121-124): strip the season string, drop rows with unparseable Price,
keep only canonical season values; no month requirement and no
free/negative price exclusion. -/
def facade_season_filter (t : List ClnRow) : List ClnRow :=
  let d0 := t.map (fun r => { r with season := pyStrip r.season })
  let d1 := d0.filter (fun r => r.price.isSome)
  d1.filter (fun r => decide (r.season ∈ season_order))


/-- The facade pricing-by-season aggregation of main.py. -/
def pricing_by_season (t : List ClnRow) : List SeasonRow :=
  season_agg facade_season_ord (facade_season_filter t)




/-- Decidable hypothesis bundle for the refinement claim: every row of
the cleaned table has a parseable ReleaseMonth, one of the four
canonical season values, and a strictly positive Price whenever the
Price parsed at all. -/
def c2_rows_ok (t : List ClnRow) : Bool :=
  t.all (fun r => r.month.isSome && decide (r.season ∈ season_order) &&
    decide (0 < r.price.getD 1))

/-- Concrete cleaned table with canonical seasons, months and positive
prices, used to exercise the season aggregations. -/
def c2_demo_table : List ClnRow :=
  [⟨some 10, some 3, "Spring".toList⟩, ⟨some 20, some 3, "Spring".toList⟩,
   ⟨some 7, some 7, "Summer".toList⟩]

/-- Concrete cleaned table containing a row whose ReleaseSeason is the
empty string, as clean_games emits for an unparsable release date. -/
def c9_blank_season_table : List ClnRow :=
  [⟨some 5, some 1, "Winter".toList⟩, ⟨some 5, some 1, "".toList⟩]

/-! ### The Q3 free/paid percentage outputs (claim C8)

build_q3_marts.main filters the table to parseable non-negative prices
(lines 114-116), normalizes IsFree (line 118), and then produces an
overall free-vs-paid summary row (lines 133-145) and per-genre
free_pct/paid_pct columns over the exploded genres (lines 163-170).
The facade free_vs_paid (main.py lines 238-259) computes the same
percentages over the whole table without any price filter.  Merging the
genre percentage frame with the other metric frames and the
min_games_per_genre filter (lines 191-199) only drop or rearrange whole
rows, so the per-group percentage values are those built here. -/

/-- One row of the cleaned games CSV as build_q3_marts reads it back. -/
structure Q3Row where
  price : Option ℚ
  isfree : PyStr
  genres : PyStr
deriving DecidableEq

/-- The price safety filters of build_q3_marts.main (lines 114-116). -/
def q3_filter (t : List Q3Row) : List Q3Row :=
  (t.filter (fun r => r.price.isSome)).filter
    (fun r => decide (0 ≤ r.price.getD 0))

/-- The one summary row of q3_free_vs_paid.csv. -/
structure FreePaidRow where
  total : ℕ
  free : ℕ
  paid : ℕ
  free_pct : ℚ
  paid_pct : ℚ
deriving DecidableEq

/-- Output 2 of build_q3_marts.main (lines 133-145): total, free and
paid counts with percentages; on an empty table both percentages are
reported as 0.0 by the `if total else 0.0` guards. -/
def q3_free_vs_paid (t : List Q3Row) : FreePaidRow :=
  let d := q3_filter t
  let total := d.length
  let free := (d.filter (fun r => normalize_isfree r.isfree)).length
  let paid := total - free
  { total := total, free := free, paid := paid,
    free_pct := if total = 0 then 0 else round2 ((free : ℚ) / (total : ℚ) * 100),
    paid_pct := if total = 0 then 0 else round2 ((paid : ℚ) / (total : ℚ) * 100) }

/-- The facade free_vs_paid endpoint (main.py lines 238-259): the same
summary computed over the raw cleaned table with the lower-only truthy
test and no price filters. -/
def facade_free_vs_paid (t : List Q3Row) : FreePaidRow :=
  let total := t.length
  let free := (t.filter (fun r => facade_isfree r.isfree)).length
  let paid := total - free
  { total := total, free := free, paid := paid,
    free_pct := if total = 0 then 0 else round2 ((free : ℚ) / (total : ℚ) * 100),
    paid_pct := if total = 0 then 0 else round2 ((paid : ℚ) / (total : ℚ) * 100) }

/-- explode_genres of build_q3_marts.py at table level: one
(row, genre) pair per kept token. -/
def explode_genres (t : List Q3Row) : List (Q3Row × PyStr) :=
  t.flatMap (fun r => (explode_genres_tokens r.genres).map (fun g => (r, g)))

/-- One row of the per-genre free/paid percentage frame. -/
structure GenreFreeRow where
  genre : PyStr
  free_games : ℕ
  games_count : ℕ
  free_pct : ℚ
  paid_pct : ℚ
deriving DecidableEq

/-- The genre_free frame of build_q3_marts.main (lines 163-170):
group the exploded rows by genre, count the normalized IsFree values,
set free_pct = round((free / count) * 100, 2) and
paid_pct = round(100 - free_pct, 2). -/
def q3_genre_free (t : List Q3Row) : List GenreFreeRow :=
  let g := explode_genres (q3_filter t)
  let keys := List.insertionSort (fun a b : PyStr => a ≤ b)
    ((g.map (fun x => x.2)).dedup)
  keys.map (fun k =>
    let grp := g.filter (fun x => decide (x.2 = k))
    let cnt := grp.length
    let free := (grp.filter (fun x => normalize_isfree x.1.isfree)).length
    let fp := round2 ((free : ℚ) / (cnt : ℚ) * 100)
    { genre := k, free_games := free, games_count := cnt,
      free_pct := fp, paid_pct := round2 (100 - fp) })

/-- Concrete cleaned table with one free and one paid game, used to
exercise the free/paid percentage outputs. -/
def q3_demo_table : List Q3Row :=
  [⟨some 0, "True".toList, "Action".toList⟩,
   ⟨some 10, "False".toList, "Action, Indie".toList⟩]

/-! ### The durable table writer (claim C6)

safe_write_csv appears verbatim in build_q1_marts.py (lines 35-53),
build_q2_marts.py and build_q3_marts.py (lines 33-51): write the table
to out_path.with_suffix(".tmp.csv"), then tmp.replace(out_path); on
PermissionError write instead to
out_path.with_name(stem + "_" + timestamp + ".csv") and print a
warning.  The function is annotated -> None and has no return
statement, so its caller always receives None.  The filesystem is
modelled as an association list of path/content pairs plus the set of
paths currently held open by another process; renaming onto a held
path is the PermissionError case. -/

/-- A filesystem path: its directory and its file name. -/
structure PathName where
  dir : PyStr
  base : PyStr
deriving DecidableEq

/-- pathlib stem: the file name up to its last extension. -/
def stemOf (base : PyStr) : PyStr :=
  let parts := base.splitOn '.'
  if parts.length ≤ 1 then base
  else List.intercalate (['.']) parts.dropLast

/-- pathlib with_suffix: replace the last extension of the name. -/
def with_suffix (p : PathName) (suf : PyStr) : PathName :=
  { dir := p.dir, base := stemOf p.base ++ suf }

/-- pathlib with_name: replace the whole file name. -/
def with_name (p : PathName) (name : PyStr) : PathName :=
  { dir := p.dir, base := name }

/-- Reading a file from the association-list filesystem. -/
def assocGet {α : Type} : List (PathName × α) → PathName → Option α
  | [], _ => none
  | (q, w) :: rest, p => if q = p then some w else assocGet rest p

/-- Creating or overwriting a file. -/
def assocSet {α : Type} : List (PathName × α) → PathName → α →
    List (PathName × α)
  | [], p, v => [(p, v)]
  | (q, w) :: rest, p, v =>
    if q = p then (p, v) :: rest else (q, w) :: assocSet rest p v

/-- Removing a file. -/
def assocDel {α : Type} : List (PathName × α) → PathName → List (PathName × α)
  | [], _ => []
  | (q, w) :: rest, p =>
    if q = p then assocDel rest p else (q, w) :: assocDel rest p

/-- The filesystem state: the stored files and the paths an external
reader holds open exclusively. -/
structure FsState (α : Type) where
  files : List (PathName × α)
  locked : List PathName
deriving DecidableEq

/-- Failure modes of a rename: the destination is held open (the
Windows sharing violation surfacing as PermissionError) or the source
is missing. -/
inductive FsErr where
  | permission
  | missing
deriving DecidableEq

/-- pathlib Path.replace: atomically rename src onto dst, failing with
PermissionError when dst is held open by another process. -/
def fs_replace {α : Type} (s : FsState α) (src dst : PathName) :
    Except FsErr (FsState α) :=
  if dst ∈ s.locked then .error .permission
  else
    match assocGet s.files src with
    | none => .error .missing
    | some v =>
      .ok { files := assocSet (assocDel s.files src) dst v, locked := s.locked }

/-- Result of one safe_write_csv call: the final filesystem, whether an
exception escaped, whether the fallback warning was printed, and the
value returned to the caller, which is always the Python None (the
function is annotated -> None and has no return statement). -/
structure WriteOutcome (α : Type) where
  fs : FsState α
  raised : Bool
  warned : Bool
  py_return : Unit
deriving DecidableEq

/-- safe_write_csv from the three mart builders: write the serialized
table to the adjacent .tmp.csv path, atomically replace the
destination, and on PermissionError replace onto the timestamped
fallback name instead, printing a warning. -/
def safe_write_csv {α : Type} (df : α) (out_path : PathName) (stamp : PyStr)
    (s : FsState α) : WriteOutcome α :=
  let tmp := with_suffix out_path (".tmp.csv".toList)
  if tmp ∈ s.locked then
    { fs := s, raised := true, warned := false, py_return := () }
  else
    let s1 : FsState α := { files := assocSet s.files tmp df, locked := s.locked }
    match fs_replace s1 tmp out_path with
    | .ok s2 => { fs := s2, raised := false, warned := false, py_return := () }
    | .error .missing =>
      { fs := s1, raised := true, warned := false, py_return := () }
    | .error .permission =>
      let fallback := with_name out_path
        (stemOf out_path.base ++ "_".toList ++ stamp ++ ".csv".toList)
      match fs_replace s1 tmp fallback with
      | .ok s3 => { fs := s3, raised := false, warned := true, py_return := () }
      | .error _ =>
        { fs := s1, raised := true, warned := false, py_return := () }

/-- The Q1 season mart destination path. -/
def mart_season_path : PathName :=
  { dir := "data/marts".toList, base := "q1_pricing_by_season.csv".toList }

/-- The Q1 month mart destination path. -/
def mart_month_path : PathName :=
  { dir := "data/marts".toList, base := "q1_pricing_by_month.csv".toList }

/-- A concrete write timestamp. -/
def demo_stamp : PyStr := "20250101_120000".toList

/-- A filesystem in which both mart destinations hold earlier builds
and are held open by an external reader. -/
def locked_marts_fs : FsState ℕ :=
  { files := [(mart_season_path, 7), (mart_month_path, 8)],
    locked := [mart_season_path, mart_month_path] }

/-- C5 counterexample: the claim says every genre-explosion operation in
the program, including the facade by-genre aggregation in main.py, drops
the case-insensitive sentinel "unknown", so a record with
Genres = "Unknown" contributes 0 rows.  The facade explosion only drops
empty tokens: on "Unknown" it keeps one token, while the mart builders
explode_genres keeps none. -/
theorem c5_unknown_kept_by_facade :
    facade_genre_tokens ("Unknown".toList) = ["Unknown".toList] ∧
    facade_genre_tokens ("Unknown".toList) ≠ [] ∧
    explode_genres_tokens ("Unknown".toList) = [] := by
  decide


/-- C5 amended: the mart builders explode_genres splits Genres on the
comma, trims each token, and keeps exactly the tokens that are non-empty
and not the case-insensitive sentinel "unknown" (so "Action, Indie, RPG"
gives exactly the three tokens and "Unknown" gives none); the facade
by-genre explosion keeps exactly the non-empty tokens, retaining the
"unknown" sentinel. -/
theorem c5_genre_explosion_amended :
    explode_genres_tokens ("Action, Indie, RPG".toList) =
      ["Action".toList, "Indie".toList, "RPG".toList] ∧
    explode_genres_tokens ("Unknown".toList) = [] ∧
    (∀ g t, t ∈ split_trim_genres g →
      (t ∈ explode_genres_tokens g ↔ (t ≠ [] ∧ pyLower t ≠ "unknown".toList))) ∧
    (∀ g t, t ∈ split_trim_genres g →
      (t ∈ facade_genre_tokens g ↔ t ≠ [])) := by
  refine ⟨by decide, by decide, ?_, ?_⟩
  · intro g t ht
    simp [explode_genres_tokens, List.mem_filter, ht]
  · intro g t ht
    simp [facade_genre_tokens, List.mem_filter, ht]


/-- C5 witness: instantiating the amended characterization on the
concrete Genres value "Action, Unknown" shows the builders drop the
sentinel token while the facade keeps it. -/
theorem c5_genre_explosion_witness :
    "Unknown".toList ∉ explode_genres_tokens ("Action, Unknown".toList) ∧
    "Unknown".toList ∈ facade_genre_tokens ("Action, Unknown".toList) := by
  obtain ⟨-, -, hc, hd⟩ := c5_genre_explosion_amended
  constructor
  · intro hmem
    have h := (hc ("Action, Unknown".toList) ("Unknown".toList) (by decide)).mp hmem
    exact h.2 (by decide)
  · exact (hd ("Action, Unknown".toList) ("Unknown".toList) (by decide)).mpr (by decide)


/-- C7 counterexample: the claim says every IsFree interpretation
classifies a record free iff the case-insensitive value of the string is
"true", "1" or "yes", and that the two implementations compute the same
function.  On the input " true" (leading space) the builder
normalize_isfree answers true although the lowercased value is not in
the set, the facade check answers false, and the two implementations
disagree. -/
theorem c7_isfree_differ :
    normalize_isfree (" true".toList) = true ∧
    facade_isfree (" true".toList) = false ∧
    pyLower (" true".toList) ∉ isfree_tokens := by
  decide


/-- C7 amended: the builder normalize_isfree lowercases then strips
before testing membership in the truthy set, while the facade check in
free_vs_paid only lowercases; the two agree on every string whose
lowercased form carries no leading or trailing whitespace (in particular
on all the canonical encodings), and both recognize exactly
"true"/"1"/"yes" up to case there. -/
theorem c7_isfree_amended :
    (∀ s : PyStr, pyStrip (pyLower s) = pyLower s →
      normalize_isfree s = facade_isfree s) ∧
    normalize_isfree ("TRUE".toList) = true ∧
    normalize_isfree ("Yes".toList) = true ∧
    normalize_isfree ("1".toList) = true ∧
    normalize_isfree ("False".toList) = false ∧
    facade_isfree ("TRUE".toList) = true ∧
    facade_isfree ("0".toList) = false := by
  refine ⟨?_, by decide, by decide, by decide, by decide, by decide, by decide⟩
  intro s h
  simp only [normalize_isfree, facade_isfree, h]


/-- C7 witness: the agreement part of the amended claim applied at the
concrete strip-invariant input "True". -/
theorem c7_isfree_witness :
    normalize_isfree ("True".toList) = facade_isfree ("True".toList) :=
  c7_isfree_amended.1 ("True".toList) (by decide)


/-- C1 counterexample: the claim says every cleaned row has Price >= 0
and that a row with negative Price is dropped.  clean_games.main has no
sign check: a raw row with price string "-5.00" is retained in the
output with the negative price -5. -/
theorem c1_negative_price_retained :
    clean_games [{ name := some ("Game".toList), price := some ("-5.00".toList) }] =
      [{ name := "Game".toList, price := some (-5) }] ∧
    (-5 : ℚ) < 0 := by
  with_unfolding_all decide


/-- C1 amended: every row of the cleaned games output has a non-null
string Name and a Price that parsed successfully (rows whose Price
coerces to NaN are dropped), but negative parsed prices are retained
because the pipeline never checks the sign, and a missing raw Name
survives as the literal string "nan" rather than being dropped. -/
theorem c1_price_always_parsed (t : List GameRaw) (r : GameClean)
    (hr : r ∈ clean_games t) : r.price.isSome := by
  simp only [clean_games] at hr
  exact (List.mem_filter.mp hr).2


/-- C1 witness: the amended theorem applied to the one-row table whose
price string is "3.50". -/
theorem c1_price_always_parsed_witness :
    (({ name := "A".toList, price := some (7/2) } : GameClean)).price.isSome :=
  c1_price_always_parsed
    [{ name := some ("A".toList), price := some ("3.50".toList) }]
    { name := "A".toList, price := some (7/2) }
    (by with_unfolding_all decide)


/-- C3 counterexample: the claim says a record with Positive = 0 and
Negative = 0 is retained with an undefined ReviewRatio.  clean_reviews
filters such records out entirely: the cleaned output for this one-row
table is empty. -/
theorem c3_zero_reviews_dropped :
    clean_reviews
      [{ price := some ("5".toList), positive := some ("0".toList),
         negative := some ("0".toList) }] = [] := by
  with_unfolding_all decide


/-- C3 amended: records whose Positive and Negative counts are both 0
are dropped by the review cleaning pipeline rather than retained with a
null ratio; every retained record has Positive + Negative > 0 and its
ratio equals exactly Positive / (Positive + Negative), so a record with
Positive = 3, Negative = 1 is kept with ratio 0.75. -/
theorem c3_ratio_on_kept_rows :
    (∀ (t : List RevRaw) (r : RevClean), r ∈ clean_reviews t →
      0 < r.positive + r.negative ∧
      r.ratio = r.positive / (r.positive + r.negative)) ∧
    clean_reviews
      [{ price := some ("10".toList), positive := some ("3".toList),
         negative := some ("1".toList) }] =
      [{ price := 10, positive := 3, negative := 1, ratio := 3/4 }] ∧
    (3/4 : ℚ) = 0.75 := by
  refine ⟨?_, by with_unfolding_all decide, by norm_num⟩
  intro t r hr
  simp only [clean_reviews, List.mem_map] at hr
  obtain ⟨v, hv, rfl⟩ := hr
  exact ⟨of_decide_eq_true (List.mem_filter.mp hv).2, rfl⟩


/-- C3 witness: the amended theorem applied to the concrete kept row
with Positive = 3 and Negative = 1. -/
theorem c3_ratio_witness :
    (0 : ℚ) < 3 + 1 ∧ (3/4 : ℚ) = 3 / (3 + 1) :=
  c3_ratio_on_kept_rows.1
    [{ price := some ("10".toList), positive := some ("3".toList),
       negative := some ("1".toList) }]
    { price := 10, positive := 3, negative := 1, ratio := 3/4 }
    (by with_unfolding_all decide)


/-- Reading back the cell just written by rowSet. -/
theorem rowGet_rowSet_self (r : PyRow) (c : PyStr) (v : PyStr) :
    rowGet (rowSet r c v) c = some v := by
  induction r with
  | nil => simp [rowSet, rowGet]
  | cons kv rest ih =>
    obtain ⟨k, w⟩ := kv
    by_cases h : k = c
    · simp [rowSet, h, rowGet]
    · simp only [rowSet, if_neg h, rowGet]
      simpa [if_neg h] using ih


/-- Cells of other columns are untouched by rowSet. -/
theorem rowGet_rowSet_ne (r : PyRow) {c c' : PyStr} (v : PyStr)
    (h : c ≠ c') : rowGet (rowSet r c v) c' = rowGet r c' := by
  induction r with
  | nil => simp [rowSet, rowGet, h]
  | cons kv rest ih =>
    obtain ⟨k, w⟩ := kv
    by_cases hk : k = c
    · subst hk
      simp [rowSet, rowGet, h]
    · simp only [rowSet, if_neg hk, rowGet]
      by_cases hk' : k = c'
      · simp [if_pos hk']
      · simpa [if_neg hk'] using ih


/-- C4 counterexample: the claim says that in every cleaning
implementation the remap happens if and only if all three source
columns (AppID, Name, Release date) are present.  On a table that has
AppID and Name but no Release date column, clean_reviews still copies
AppID into Name (its check is on AppID alone), so the table changes even
though the claim requires it to be used at face value. -/
theorem c4_reviews_remap_without_release_date :
    ¬ all_three_cols
      { cols := ["AppID".toList, "Name".toList, "Price".toList],
        rows := [[("AppID".toList, "Portal".toList),
                  ("Name".toList, "2011".toList),
                  ("Price".toList, "9.99".toList)]] } ∧
    reviews_remap
      { cols := ["AppID".toList, "Name".toList, "Price".toList],
        rows := [[("AppID".toList, "Portal".toList),
                  ("Name".toList, "2011".toList),
                  ("Price".toList, "9.99".toList)]] } =
      { cols := ["AppID".toList, "Name".toList, "Price".toList],
        rows := [[("AppID".toList, "Portal".toList),
                  ("Name".toList, "Portal".toList),
                  ("Price".toList, "9.99".toList)]] } ∧
    (([("AppID".toList, "Portal".toList),
       ("Name".toList, "Portal".toList),
       ("Price".toList, "9.99".toList)] : PyRow) ≠
      [("AppID".toList, "Portal".toList),
       ("Name".toList, "2011".toList),
       ("Price".toList, "9.99".toList)]) := by
  refine ⟨by decide, by decide, by decide⟩


/-- C4 amended: clean_games applies the three-column rotation if and
only if AppID, Name and Release date are all present (with any of them
absent the table is untouched), while clean_reviews copies AppID into
Name whenever AppID alone is present, regardless of the other two
columns, and is the identity only when AppID is absent. -/
theorem c4_remap_amended :
    (∀ t : PyTable, ¬ all_three_cols t → games_remap t = t) ∧
    (∀ t : PyTable, all_three_cols t →
      ∀ r ∈ (games_remap t).rows, ∃ r₀ ∈ t.rows,
        rowGet r ("Name".toList) = some (cellOf r₀ ("AppID".toList)) ∧
        rowGet r ("Release date".toList) = some (cellOf r₀ ("Name".toList)) ∧
        rowGet r ("Estimated owners".toList) =
          some (cellOf r₀ ("Release date".toList))) ∧
    (∀ t : PyTable, "AppID".toList ∉ t.cols → reviews_remap t = t) ∧
    (∀ t : PyTable, "AppID".toList ∈ t.cols →
      ∀ r ∈ (reviews_remap t).rows, ∃ r₀ ∈ t.rows,
        rowGet r ("Name".toList) = some (cellOf r₀ ("AppID".toList))) := by
  refine ⟨?_, ?_, ?_, ?_⟩
  · intro t h
    simp only [games_remap, all_three_cols] at *
    rw [if_neg h]
  · intro t h r hr
    simp only [games_remap, all_three_cols] at *
    rw [if_pos h] at hr
    simp only [List.mem_map] at hr
    obtain ⟨r₀, hr₀, rfl⟩ := hr
    refine ⟨r₀, hr₀, ?_, ?_, ?_⟩
    · rw [rowGet_rowSet_ne _ _ (by decide), rowGet_rowSet_ne _ _ (by decide),
        rowGet_rowSet_self]
    · rw [rowGet_rowSet_ne _ _ (by decide), rowGet_rowSet_self]
    · rw [rowGet_rowSet_self]
  · intro t h
    simp only [reviews_remap]
    rw [if_neg h]
  · intro t h r hr
    simp only [reviews_remap] at hr
    rw [if_pos h] at hr
    simp only [List.mem_map] at hr
    obtain ⟨r₀, hr₀, rfl⟩ := hr
    exact ⟨r₀, hr₀, rowGet_rowSet_self _ _ _⟩


/-- C4 witness: the amended theorem applied to a concrete table that
does have all three source columns. -/
theorem c4_remap_witness :
    ∃ r₀ ∈ remap_demo_table.rows,
      rowGet remap_demo_row ("Name".toList) = some (cellOf r₀ ("AppID".toList)) ∧
      rowGet remap_demo_row ("Release date".toList) =
        some (cellOf r₀ ("Name".toList)) ∧
      rowGet remap_demo_row ("Estimated owners".toList) =
        some (cellOf r₀ ("Release date".toList)) :=
  c4_remap_amended.2.1 remap_demo_table (by decide) remap_demo_row (by decide)


/-- C10: every request to the data-paths operation fails with a
NameError on the identifier REVIEWS_CLEAN, which is referenced by the
handler but never defined in main.py, so the handler can never return
the path report it constructs. -/
theorem c10_data_paths_name_error :
    data_paths = .error ("REVIEWS_CLEAN".toList) ∧
    "REVIEWS_CLEAN".toList ∉ main_module_names := by
  exact ⟨rfl, by decide⟩


/-! ### Helper lemmas for the aggregation and persistence proofs -/

/-- Inserting with two comparators that agree on the element and the
list gives the same result. -/
theorem orderedInsert_congr {α : Type} {r₁ r₂ : α → α → Prop}
    [DecidableRel r₁] [DecidableRel r₂] (a : α) (l : List α)
    (h : ∀ b ∈ l, r₁ a b ↔ r₂ a b) :
    List.orderedInsert r₁ a l = List.orderedInsert r₂ a l := by
  induction l with
  | nil => rfl
  | cons b t ih =>
    have hab := h b (List.mem_cons_self b t)
    by_cases hr : r₂ a b
    · rw [List.orderedInsert, List.orderedInsert, if_pos (hab.mpr hr), if_pos hr]
    · rw [List.orderedInsert, List.orderedInsert,
        if_neg (fun hh => hr (hab.mp hh)), if_neg hr,
        ih (fun x hx => h x (List.mem_cons_of_mem b hx))]

/-- Sorting with two comparators that agree on the members of the list
gives the same result. -/
theorem insertionSort_congr {α : Type} {r₁ r₂ : α → α → Prop}
    [DecidableRel r₁] [DecidableRel r₂] (l : List α)
    (h : ∀ a ∈ l, ∀ b ∈ l, r₁ a b ↔ r₂ a b) :
    List.insertionSort r₁ l = List.insertionSort r₂ l := by
  induction l with
  | nil => rfl
  | cons a t ih =>
    rw [List.insertionSort, List.insertionSort,
      ih (fun x hx y hy => h x (List.mem_cons_of_mem a hx) y
        (List.mem_cons_of_mem a hy))]
    apply orderedInsert_congr
    intro b hb
    have hb' : b ∈ t := (List.perm_insertionSort r₂ t).subset hb
    exact h a (List.mem_cons_self a t) b (List.mem_cons_of_mem a hb')

/-- The canonical season strings carry no surrounding whitespace. -/
theorem season_strip_mem : ∀ s ∈ season_order, pyStrip s = s := by
  intro s hs
  fin_cases hs <;> decide

/-- Sorting a duplicate-free list of canonical season values by an
order index that restricts to the canonical position yields exactly the
canonical sequence filtered to the values present. -/
theorem insertionSort_canonical (ord : PyStr → ℕ)
    (hord : ∀ s ∈ season_order, ord s = season_order.indexOf s)
    (keys : List PyStr) (hnd : keys.Nodup)
    (hsub : ∀ k ∈ keys, k ∈ season_order) :
    List.insertionSort (fun a b => ord a ≤ ord b) keys =
      season_order.filter (fun s => decide (s ∈ keys)) := by
  classical
  have htot : IsTotal PyStr (fun a b => ord a ≤ ord b) :=
    ⟨fun a b => Nat.le_total (ord a) (ord b)⟩
  have htrans : IsTrans PyStr (fun a b => ord a ≤ ord b) :=
    ⟨fun a b c => Nat.le_trans⟩
  have hanti : IsAntisymm PyStr (fun a b : PyStr => ord a < ord b) :=
    ⟨fun a b h1 h2 => absurd (Nat.lt_trans h1 h2) (Nat.lt_irrefl _)⟩
  have hperm : (List.insertionSort (fun a b => ord a ≤ ord b) keys).Perm keys :=
    List.perm_insertionSort _ keys
  have hndS : (List.insertionSort (fun a b => ord a ≤ ord b) keys).Nodup :=
    hperm.nodup_iff.mpr hnd
  have hSorted := List.sorted_insertionSort (fun a b => ord a ≤ ord b) keys
  have hmemS : ∀ x ∈ List.insertionSort (fun a b => ord a ≤ ord b) keys,
      x ∈ season_order := fun x hx => hsub x (hperm.subset hx)
  have hpair : (List.insertionSort (fun a b => ord a ≤ ord b) keys).Pairwise
      (fun a b => ord a < ord b) := by
    have hand := List.Pairwise.and hSorted hndS
    refine hand.imp_of_mem ?_
    intro a b ha hb hab
    have ha' := hmemS a ha
    have hb' := hmemS b hb
    have hne : ord a ≠ ord b := by
      rw [hord a ha', hord b hb']
      intro hEq
      apply hab.2
      fin_cases ha' <;> fin_cases hb' <;> first | rfl | (exfalso; revert hEq; decide)
    exact Nat.lt_of_le_of_ne hab.1 hne
  have hRnd : (season_order.filter (fun s => decide (s ∈ keys))).Nodup :=
    (by decide : season_order.Nodup).filter _
  have hRsorted : (season_order.filter (fun s => decide (s ∈ keys))).Pairwise
      (fun a b => ord a < ord b) := by
    have hbase : season_order.Pairwise
        (fun a b => season_order.indexOf a < season_order.indexOf b) := by decide
    have hso : season_order.Pairwise (fun a b => ord a < ord b) := by
      refine hbase.imp_of_mem ?_
      intro a b ha hb hlt
      rw [hord a ha, hord b hb]
      exact hlt
    exact hso.filter _
  have hpermR : (List.insertionSort (fun a b => ord a ≤ ord b) keys).Perm
      (season_order.filter (fun s => decide (s ∈ keys))) := by
    rw [List.perm_ext_iff_of_nodup hndS hRnd]
    intro a
    simp only [List.mem_filter, decide_eq_true_eq]
    constructor
    · intro ha
      exact ⟨hsub a (hperm.subset ha), hperm.subset ha⟩
    · rintro ⟨-, hk⟩
      exact hperm.mem_iff.mpr hk
  exact List.eq_of_perm_of_sorted hpermR hpair hRsorted

/-- The season keys of the shared aggregation core: when every row
carries a canonical season and the order index restricts to the
canonical position, the output groups are the canonical sequence
filtered to the seasons present. -/
theorem season_agg_keys (ord : PyStr → ℕ)
    (hord : ∀ s ∈ season_order, ord s = season_order.indexOf s)
    (rows : List ClnRow) (hsub : ∀ r ∈ rows, r.season ∈ season_order) :
    (season_agg ord rows).map (fun x => x.season) =
      season_order.filter (fun s =>
        decide (s ∈ rows.map (fun r => r.season))) := by
  simp only [season_agg, List.map_map]
  have hmapid : ∀ (f : PyStr → SeasonRow), (∀ k, (f k).season = k) →
      ∀ (l : List PyStr), l.map ((fun x : SeasonRow => x.season) ∘ f) = l := by
    intro f hf l
    induction l with
    | nil => rfl
    | cons a l ih => simp only [List.map_cons, Function.comp_apply, hf, ih]
  rw [hmapid _ (fun k => rfl)]
  have hnd : (group_keys (rows.map (fun r => r.season))).Nodup :=
    (List.perm_insertionSort _ _).nodup_iff.mpr (List.nodup_dedup _)
  have hsub2 : ∀ k ∈ group_keys (rows.map (fun r => r.season)),
      k ∈ season_order := by
    intro k hk
    have h1 := List.mem_dedup.mp ((List.perm_insertionSort _ _).subset hk)
    obtain ⟨r, hr, rfl⟩ := List.mem_map.mp h1
    exact hsub r hr
  rw [insertionSort_canonical ord hord _ hnd hsub2]
  apply List.filter_congr
  intro s hs
  have hiff : s ∈ group_keys (rows.map (fun r => r.season)) ↔
      s ∈ rows.map (fun r => r.season) := by
    constructor
    · intro h1
      exact List.mem_dedup.mp ((List.perm_insertionSort _ _).subset h1)
    · intro h1
      exact (List.perm_insertionSort _ _).mem_iff.mpr (List.mem_dedup.mpr h1)
  exact decide_eq_decide.mpr hiff

/-- Half-to-even rounding moves a rational by at most one half. -/
theorem roundHalfEven_abs (q : ℚ) : |(roundHalfEven q : ℚ) - q| ≤ 1/2 := by
  have h0 : (0:ℚ) ≤ Int.fract q := Int.fract_nonneg q
  have h1 : Int.fract q < 1 := Int.fract_lt_one q
  have hq : Int.fract q = q - ⌊q⌋ := rfl
  unfold roundHalfEven
  split_ifs with hlt hgt heven
  · rw [abs_le]
    constructor <;> linarith
  · rw [abs_le]
    push_cast
    constructor <;> linarith
  · have heq : Int.fract q = 1/2 := le_antisymm (not_lt.mp hgt) (not_lt.mp hlt)
    rw [abs_le]
    constructor <;> linarith
  · have heq : Int.fract q = 1/2 := le_antisymm (not_lt.mp hgt) (not_lt.mp hlt)
    rw [abs_le]
    push_cast
    constructor <;> linarith

/-- Two-decimal rounding moves a rational by at most 0.005. -/
theorem round2_abs (q : ℚ) : |round2 q - q| ≤ 1/200 := by
  have h := roundHalfEven_abs (q * 100)
  unfold round2
  rw [show (roundHalfEven (q*100) : ℚ)/100 - q =
      ((roundHalfEven (q*100) : ℚ) - q*100)/100 from by ring, abs_div,
    show |(100:ℚ)| = 100 from by norm_num]
  calc |(roundHalfEven (q*100) : ℚ) - q*100| / 100 ≤ (1/2)/100 := by gcongr
    _ = 1/200 := by norm_num

/-- Half-to-even rounding fixes the integers. -/
theorem roundHalfEven_intCast (n : ℤ) : roundHalfEven (n : ℚ) = n := by
  unfold roundHalfEven
  rw [Int.fract_intCast, Int.floor_intCast]
  norm_num

/-- Two-decimal rounding fixes every multiple of one hundredth. -/
theorem round2_div_100 (n : ℤ) : round2 ((n : ℚ)/100) = (n : ℚ)/100 := by
  unfold round2
  rw [show ((n:ℚ)/100) * 100 = (n:ℚ) from by field_simp, roundHalfEven_intCast]

/-- Rounding two complementary percentages keeps their sum within one
hundredth of 100. -/
theorem round2_pair_sum {x y : ℚ} (hxy : x + y = 100) :
    |round2 x + round2 y - 100| ≤ 1/100 := by
  have hx := round2_abs x
  have hy := round2_abs y
  have hsplit : round2 x + round2 y - 100 = (round2 x - x) + (round2 y - y) := by
    rw [← hxy]; ring
  rw [hsplit]
  calc |(round2 x - x) + (round2 y - y)| ≤ |round2 x - x| + |round2 y - y| :=
      abs_add _ _
    _ ≤ 1/200 + 1/200 := add_le_add hx hy
    _ = 1/100 := by norm_num

/-- Rounding the complement of an already rounded percentage is exact. -/
theorem round2_complement (x : ℚ) : round2 (100 - round2 x) = 100 - round2 x := by
  have hrepr : 100 - round2 x = ((10000 - roundHalfEven (x*100) : ℤ) : ℚ)/100 := by
    unfold round2
    push_cast
    ring
  rw [hrepr, round2_div_100]

/-- Reading back the file just written. -/
theorem assocGet_set_self {α : Type} (l : List (PathName × α)) (p : PathName)
    (v : α) : assocGet (assocSet l p v) p = some v := by
  induction l with
  | nil => simp [assocSet, assocGet]
  | cons qw rest ih =>
    obtain ⟨q, w⟩ := qw
    by_cases h : q = p
    · simp [assocSet, h, assocGet]
    · simp only [assocSet, if_neg h, assocGet]
      simpa [if_neg h] using ih

/-- Writing one file leaves every other file unchanged. -/
theorem assocGet_set_ne {α : Type} (l : List (PathName × α)) {p p2 : PathName}
    (v : α) (h : p ≠ p2) : assocGet (assocSet l p v) p2 = assocGet l p2 := by
  induction l with
  | nil => simp [assocSet, assocGet, h]
  | cons qw rest ih =>
    obtain ⟨q, w⟩ := qw
    by_cases hq : q = p
    · subst hq
      simp [assocSet, assocGet, h]
    · simp only [assocSet, if_neg hq, assocGet]
      by_cases hq2 : q = p2
      · simp [if_pos hq2]
      · simpa [if_neg hq2] using ih

/-- Deleting one file leaves every other file unchanged. -/
theorem assocGet_del_ne {α : Type} (l : List (PathName × α)) {p p2 : PathName}
    (h : p ≠ p2) : assocGet (assocDel l p) p2 = assocGet l p2 := by
  induction l with
  | nil => simp [assocDel, assocGet]
  | cons qw rest ih =>
    obtain ⟨q, w⟩ := qw
    by_cases hq : q = p
    · subst hq
      simp only [assocDel, if_pos rfl, assocGet, if_neg h]
      exact ih
    · simp only [assocDel, if_neg hq, assocGet]
      by_cases hq2 : q = p2
      · simp [if_pos hq2]
      · simpa [if_neg hq2] using ih

/-- C2 counterexample: the claim says the facade by-season operation
produces exactly the same aggregation rows as the batch Q1 season mart
builder on the same cleaned table.  On a table holding one free game
(Price 0) with a January release, the facade reports a Winter group of
count 1 while the builder run (paid_only = True at its entry point)
drops the row and emits no group at all. -/
theorem c2_free_game_divergence :
    pricing_by_season [⟨some 0, some 1, "Winter".toList⟩] =
      [⟨"Winter".toList, 1, 0, 0, 0, 0⟩] ∧
    q1_season_mart true [⟨some 0, some 1, "Winter".toList⟩] = [] ∧
    pricing_by_season [⟨some 0, some 1, "Winter".toList⟩] ≠
      q1_season_mart true [⟨some 0, some 1, "Winter".toList⟩] := by
  with_unfolding_all decide

/-- C2 amended: the facade by-season operation and the Q1 season mart
builder produce exactly the same aggregation rows, in the same order
and with the same rounded statistics, on every cleaned table whose rows
all have a parseable ReleaseMonth, a canonical ReleaseSeason, and a
strictly positive Price whenever the Price parsed; in general they
diverge, because the builder additionally excludes free games, negative
prices, rows without a month, and keeps non-canonical season groups
that the facade filters out. -/
theorem c2_season_equiv_amended (t : List ClnRow) (h : c2_rows_ok t = true) :
    pricing_by_season t = q1_season_mart true t := by
  have hall : ∀ r ∈ t, (r.month.isSome && decide (r.season ∈ season_order) &&
      decide (0 < r.price.getD 1)) = true := List.all_eq_true.mp h
  have hrow : ∀ r ∈ t, r.month.isSome = true ∧ r.season ∈ season_order ∧
      0 < r.price.getD 1 := by
    intro r hr
    have h1 := hall r hr
    simp only [Bool.and_eq_true, decide_eq_true_eq] at h1
    exact ⟨h1.1.1, h1.1.2, h1.2⟩
  have hmap : t.map (fun r => { r with season := pyStrip r.season }) = t := by
    have hcongr : ∀ r ∈ t,
        ({ r with season := pyStrip r.season } : ClnRow) = id r := by
      intro r hr
      obtain ⟨p, m, s⟩ := r
      have hs : s ∈ season_order := (hrow _ hr).2.1
      simp only [id]
      rw [show pyStrip s = s from season_strip_mem s hs]
    rw [List.map_congr_left hcongr, List.map_id]
  have hfacade : facade_season_filter t =
      t.filter (fun r => r.price.isSome) := by
    unfold facade_season_filter
    rw [hmap, List.filter_filter]
    apply List.filter_congr
    intro r hr
    have hs : r.season ∈ season_order := (hrow r hr).2.1
    simp [hs]
  have hq1 : q1_filter true t = t.filter (fun r => r.price.isSome) := by
    unfold q1_filter
    simp only [if_true]
    rw [List.filter_filter, List.filter_filter, List.filter_filter,
      List.filter_filter]
    apply List.filter_congr
    intro r hr
    obtain ⟨hm, hsmem, hpos⟩ := hrow r hr
    cases hp : r.price with
    | none => simp [hp]
    | some p =>
      have hpos' : 0 < p := by simpa [hp] using hpos
      simp [hp, hm, le_of_lt hpos', hpos']
  have hkeysub : ∀ k ∈ group_keys ((t.filter (fun r => r.price.isSome)).map
      (fun r => r.season)), k ∈ season_order := by
    intro k hk
    have h1 : k ∈ ((t.filter (fun r => r.price.isSome)).map
        (fun r => r.season)).dedup :=
      (List.perm_insertionSort _ _).subset hk
    have h2 := List.mem_dedup.mp h1
    obtain ⟨r, hr, rfl⟩ := List.mem_map.mp h2
    exact (hrow r (List.mem_filter.mp hr).1).2.1
  have hkeys : List.insertionSort
      (fun a b => facade_season_ord a ≤ facade_season_ord b)
      (group_keys ((t.filter (fun r => r.price.isSome)).map
        (fun r => r.season))) =
      List.insertionSort (fun a b => q1_season_ord a ≤ q1_season_ord b)
      (group_keys ((t.filter (fun r => r.price.isSome)).map
        (fun r => r.season))) := by
    apply insertionSort_congr
    intro a ha b hb
    have e1 : q1_season_ord a = facade_season_ord a := by
      unfold q1_season_ord facade_season_ord
      rw [if_pos (hkeysub a ha)]
    have e2 : q1_season_ord b = facade_season_ord b := by
      unfold q1_season_ord facade_season_ord
      rw [if_pos (hkeysub b hb)]
    rw [e1, e2]
  unfold pricing_by_season q1_season_mart
  rw [hfacade, hq1]
  simp only [season_agg]
  rw [hkeys]

/-- C2 witness: the amended refinement applied to a concrete cleaned
table with two Spring releases and one Summer release, all paid. -/
theorem c2_season_equiv_witness :
    pricing_by_season c2_demo_table = q1_season_mart true c2_demo_table :=
  c2_season_equiv_amended c2_demo_table (by with_unfolding_all decide)

/-- C9 counterexample: the claim says the by-season rows of both the Q1
season mart and the facade always appear in the canonical order
Winter, Spring, Summer, Fall restricted to the groups present.  The
cleaned table can carry an empty ReleaseSeason (clean_games writes one
whenever the release date fails to parse), and the builder keeps that
group and appends it after the canonical ones: its output season
sequence is not the canonical sequence restricted to the present
groups.  The facade filters the blank season out. -/
theorem c9_builder_blank_season_group :
    (q1_season_mart true c9_blank_season_table).map (fun x => x.season) =
      ["Winter".toList, "".toList] ∧
    season_order.filter (fun s =>
      decide (s ∈ (q1_filter true c9_blank_season_table).map
        (fun r => r.season))) = ["Winter".toList] ∧
    (q1_season_mart true c9_blank_season_table).map (fun x => x.season) ≠
      season_order.filter (fun s =>
        decide (s ∈ (q1_filter true c9_blank_season_table).map
          (fun r => r.season))) ∧
    (pricing_by_season c9_blank_season_table).map (fun x => x.season) =
      ["Winter".toList] := by
  with_unfolding_all decide

/-- C9 amended: the facade by-season rows always appear in the
canonical order Winter, Spring, Summer, Fall restricted to the groups
actually present; the Q1 season mart rows do so on every table whose
retained rows all carry canonical season values, while a
non-canonical value (such as the blank season of an unparsed date)
produces an extra trailing group in the builder only. -/
theorem c9_canonical_order_amended :
    (∀ t : List ClnRow, (pricing_by_season t).map (fun x => x.season) =
      season_order.filter (fun s =>
        decide (s ∈ (facade_season_filter t).map (fun r => r.season)))) ∧
    (∀ t : List ClnRow,
      ((q1_filter true t).all (fun r => decide (r.season ∈ season_order)) = true) →
      (q1_season_mart true t).map (fun x => x.season) =
        season_order.filter (fun s =>
          decide (s ∈ (q1_filter true t).map (fun r => r.season)))) := by
  constructor
  · intro t
    apply season_agg_keys
    · intro s _
      rfl
    · intro r hr
      exact of_decide_eq_true (List.mem_filter.mp hr).2
  · intro t hcanon
    apply season_agg_keys
    · intro s hsmem
      unfold q1_season_ord
      rw [if_pos hsmem]
    · intro r hr
      exact of_decide_eq_true (List.all_eq_true.mp hcanon r hr)

/-- C9 witness: the builder half of the amended claim applied to the
all-canonical demo table. -/
theorem c9_canonical_order_witness :
    (q1_season_mart true c2_demo_table).map (fun x => x.season) =
      season_order.filter (fun s =>
        decide (s ∈ (q1_filter true c2_demo_table).map (fun r => r.season))) :=
  c9_canonical_order_amended.2 c2_demo_table (by with_unfolding_all decide)

/-- C8 counterexample: the claim says free_pct + paid_pct = 100.00
within 0.01 for every group of every free/paid percentage output, for
every input table.  On the empty table the overall summary row (both in
the builder and in the facade) reports free_pct = paid_pct = 0.0 by its
explicit zero-total guard, so the sum is 0, far outside the tolerance. -/
theorem c8_empty_table_pcts :
    (q3_free_vs_paid []).free_pct + (q3_free_vs_paid []).paid_pct = 0 ∧
    ¬ |(q3_free_vs_paid []).free_pct + (q3_free_vs_paid []).paid_pct - 100|
      ≤ 1/100 ∧
    (facade_free_vs_paid []).free_pct + (facade_free_vs_paid []).paid_pct
      = 0 := by
  with_unfolding_all decide

/-- C8 amended: whenever the aggregated population is non-empty, the
reported free_pct and paid_pct sum to 100.00 within 0.01 in the overall
builder summary and in the facade endpoint, and every per-genre row
sums to exactly 100; only the empty-table summary rows report 0 and 0. -/
theorem c8_pct_sum_amended :
    (∀ t : List Q3Row, q3_filter t ≠ [] →
      |(q3_free_vs_paid t).free_pct + (q3_free_vs_paid t).paid_pct - 100|
        ≤ 1/100) ∧
    (∀ t : List Q3Row, t ≠ [] →
      |(facade_free_vs_paid t).free_pct + (facade_free_vs_paid t).paid_pct
        - 100| ≤ 1/100) ∧
    (∀ (t : List Q3Row) (row : GenreFreeRow), row ∈ q3_genre_free t →
      row.free_pct + row.paid_pct = 100) := by
  refine ⟨?_, ?_, ?_⟩
  · intro t ht
    have htot : (q3_filter t).length ≠ 0 := fun h0 =>
      ht (List.length_eq_zero.mp h0)
    have hle : ((q3_filter t).filter (fun r => normalize_isfree r.isfree)).length
        ≤ (q3_filter t).length := List.length_filter_le _ _
    simp only [q3_free_vs_paid]
    rw [if_neg htot, if_neg htot]
    apply round2_pair_sum
    have hn : ((q3_filter t).length : ℚ) ≠ 0 := Nat.cast_ne_zero.mpr htot
    rw [Nat.cast_sub hle]
    field_simp
    ring
  · intro t ht
    have htot : t.length ≠ 0 := fun h0 => ht (List.length_eq_zero.mp h0)
    have hle : (t.filter (fun r => facade_isfree r.isfree)).length ≤ t.length :=
      List.length_filter_le _ _
    simp only [facade_free_vs_paid]
    rw [if_neg htot, if_neg htot]
    apply round2_pair_sum
    have hn : (t.length : ℚ) ≠ 0 := Nat.cast_ne_zero.mpr htot
    rw [Nat.cast_sub hle]
    field_simp
    ring
  · intro t row hrow
    simp only [q3_genre_free, List.mem_map] at hrow
    obtain ⟨k, hk, rfl⟩ := hrow
    show round2 _ + round2 (100 - round2 _) = 100
    rw [round2_complement]
    ring

/-- C8 witness: the amended bounds applied to the concrete two-game
table with one free and one paid title, including its Action genre row
whose percentages are 50 and 50. -/
theorem c8_pct_sum_witness :
    |(q3_free_vs_paid q3_demo_table).free_pct +
      (q3_free_vs_paid q3_demo_table).paid_pct - 100| ≤ 1/100 ∧
    |(facade_free_vs_paid q3_demo_table).free_pct +
      (facade_free_vs_paid q3_demo_table).paid_pct - 100| ≤ 1/100 ∧
    (⟨"Action".toList, 1, 2, 50, 50⟩ : GenreFreeRow).free_pct +
      (⟨"Action".toList, 1, 2, 50, 50⟩ : GenreFreeRow).paid_pct = 100 :=
  ⟨c8_pct_sum_amended.1 q3_demo_table (by with_unfolding_all decide),
   c8_pct_sum_amended.2.1 q3_demo_table (by decide),
   c8_pct_sum_amended.2.2 q3_demo_table ⟨"Action".toList, 1, 2, 50, 50⟩
     (by with_unfolding_all decide)⟩

/-- C6 counterexample: the claim says the writer, on a locked
destination, completes without raising, writes a timestamped fallback,
and returns both the destination path and the fallback path to its
caller.  The source function is annotated -> None and has no return
statement: two runs against the two locked mart destinations produce
different fallback files yet identical returned values (None), so the
caller cannot receive either path from the writer. -/
theorem c6_writer_returns_none :
    (safe_write_csv 42 mart_season_path demo_stamp locked_marts_fs).raised
      = false ∧
    (safe_write_csv 42 mart_season_path demo_stamp locked_marts_fs).warned
      = true ∧
    assocGet (safe_write_csv 42 mart_season_path demo_stamp
        locked_marts_fs).fs.files
      { dir := "data/marts".toList,
        base := "q1_pricing_by_season_20250101_120000.csv".toList } = some 42 ∧
    assocGet (safe_write_csv 42 mart_season_path demo_stamp
        locked_marts_fs).fs.files mart_season_path = some 7 ∧
    assocGet (safe_write_csv 43 mart_month_path demo_stamp
        locked_marts_fs).fs.files
      { dir := "data/marts".toList,
        base := "q1_pricing_by_month_20250101_120000.csv".toList } = some 43 ∧
    (safe_write_csv 42 mart_season_path demo_stamp locked_marts_fs).py_return =
      (safe_write_csv 43 mart_month_path demo_stamp locked_marts_fs).py_return
      := by
  decide

/-- C6 amended: when the destination is locked while the temporary and
fallback paths are free, the writer completes without raising, emits
only a warning, writes the full table to a fallback file whose name is
the destination stem, an underscore, the write timestamp and the csv
extension, and leaves the destination content untouched; however it
returns None, so the caller receives neither the destination path nor
the fallback path from the call. -/
theorem c6_fallback_write_amended {α : Type} (df : α) (out_path : PathName)
    (stamp : PyStr) (s : FsState α)
    (hlock : out_path ∈ s.locked)
    (htmp : with_suffix out_path (".tmp.csv".toList) ∉ s.locked)
    (hfb : with_name out_path
      (stemOf out_path.base ++ "_".toList ++ stamp ++ ".csv".toList) ∉ s.locked)
    (hout_tmp : with_suffix out_path (".tmp.csv".toList) ≠ out_path)
    (hout_fb : with_name out_path
      (stemOf out_path.base ++ "_".toList ++ stamp ++ ".csv".toList)
      ≠ out_path) :
    (safe_write_csv df out_path stamp s).raised = false ∧
    (safe_write_csv df out_path stamp s).warned = true ∧
    assocGet (safe_write_csv df out_path stamp s).fs.files
      (with_name out_path
        (stemOf out_path.base ++ "_".toList ++ stamp ++ ".csv".toList))
      = some df ∧
    assocGet (safe_write_csv df out_path stamp s).fs.files out_path =
      assocGet s.files out_path := by
  set tmp := with_suffix out_path (".tmp.csv".toList) with htmpdef
  set fb := with_name out_path
    (stemOf out_path.base ++ "_".toList ++ stamp ++ ".csv".toList) with hfbdef
  have h1 : fs_replace (⟨assocSet s.files tmp df, s.locked⟩ : FsState α)
      tmp out_path = .error .permission := by
    unfold fs_replace
    rw [if_pos hlock]
  have h2 : fs_replace (⟨assocSet s.files tmp df, s.locked⟩ : FsState α) tmp fb =
      .ok (⟨assocSet (assocDel (assocSet s.files tmp df) tmp) fb df,
        s.locked⟩ : FsState α) := by
    unfold fs_replace
    rw [if_neg hfb, assocGet_set_self]
  simp only [safe_write_csv, if_neg htmp, h1, h2]
  refine ⟨trivial, trivial, assocGet_set_self _ _ _, ?_⟩
  rw [assocGet_set_ne _ _ hout_fb, assocGet_del_ne _ hout_tmp,
    assocGet_set_ne _ _ hout_tmp]

/-- C6 witness: the amended contract applied to the concrete locked
season mart destination. -/
theorem c6_fallback_write_witness :
    (safe_write_csv (37 : ℕ) mart_season_path demo_stamp
      locked_marts_fs).raised = false ∧
    (safe_write_csv (37 : ℕ) mart_season_path demo_stamp
      locked_marts_fs).warned = true ∧
    assocGet (safe_write_csv (37 : ℕ) mart_season_path demo_stamp
        locked_marts_fs).fs.files
      (with_name mart_season_path (stemOf mart_season_path.base ++ "_".toList
        ++ demo_stamp ++ ".csv".toList)) = some 37 ∧
    assocGet (safe_write_csv (37 : ℕ) mart_season_path demo_stamp
        locked_marts_fs).fs.files mart_season_path =
      assocGet locked_marts_fs.files mart_season_path :=
  c6_fallback_write_amended 37 mart_season_path demo_stamp locked_marts_fs
    (by decide) (by decide) (by decide) (by decide) (by decide)

end GamePricing
